import Mathlib

/-!
Verification of the satellite-tracker core (tracker/utils.py, tracker/model.py,
main.py) against its natural-language specification.

The Python source is shallowly embedded below: angles, times and rates are
rationals, the ephemeris sampling grid is a list, the tracking loop is a
fuel-indexed recursion over a schedule of wall-clock tick times, and the mount
driver is a trace of commands.
-/

namespace SatelliteTracker

/-! ### Waypoint preparation (generate_trajectory, tracker/utils.py lines 176-249) -/

/-- The azimuth wraparound correction of utils.py lines 188-194 (and the
identical one at lines 405-409): given the previous unwrapped azimuth and a new
raw sample, add or subtract 360 when the apparent jump exceeds 180 degrees. -/
def wrapCorrect (prev z : ℚ) : ℚ :=
  if |prev - z| > 180 then (if prev > z then z + 360 else z - 360) else z

/-- Unwrap a tail of raw azimuth samples given the previous unwrapped value,
threading the corrected value as the new previous value exactly as the loop in
generate_trajectory threads laz. -/
def unwrapFrom (prev : ℚ) : List ℚ → List ℚ
  | [] => []
  | z :: rest =>
    let z' := wrapCorrect prev z
    z' :: unwrapFrom z' rest

/-- Unwrap a whole raw azimuth series; the first sample is taken as is, which
matches the lalt-is-None first iteration of the loop. -/
def unwrap : List ℚ → List ℚ
  | [] => []
  | z :: rest => z :: unwrapFrom z rest

/-- Samples are triples of (absolute time in seconds, altitude degrees, raw
azimuth degrees), mirroring the zipped iteration over tr, alt.degrees,
az.degrees in generate_trajectory. -/
abbrev Sample := ℚ × ℚ × ℚ

/-- Apply the azimuth unwrap to the azimuth component of a tail of samples,
leaving times and altitudes untouched, threading the previous unwrapped
azimuth. -/
def prepareFrom (laz : ℚ) : List Sample → List Sample
  | [] => []
  | (t, a, z) :: rest =>
    let z' := wrapCorrect laz z
    (t, a, z') :: prepareFrom z' rest

/-- Apply the azimuth unwrap to a whole sample series. -/
def prepare : List Sample → List Sample
  | [] => []
  | (t, a, z) :: rest => (t, a, z) :: prepareFrom z rest

theorem prepareFrom_time_alt (laz : ℚ) (l : List Sample) :
    (prepareFrom laz l).map (fun s => (s.1, s.2.1)) = l.map (fun s => (s.1, s.2.1)) := by
  induction l generalizing laz with
  | nil => rfl
  | cons s rest ih =>
    obtain ⟨t, a, z⟩ := s
    simp [prepareFrom, ih]

theorem prepare_time_alt (l : List Sample) :
    (prepare l).map (fun s => (s.1, s.2.1)) = l.map (fun s => (s.1, s.2.1)) := by
  cases l with
  | nil => rfl
  | cons s rest =>
    obtain ⟨t, a, z⟩ := s
    simp [prepare, prepareFrom_time_alt]

/-- wrapCorrect leaves the sample, or shifts it by exactly one full turn. -/
theorem wrapCorrect_cases (prev z : ℚ) :
    wrapCorrect prev z = z ∨ wrapCorrect prev z = z + 360 ∨ wrapCorrect prev z = z - 360 := by
  unfold wrapCorrect
  split_ifs with h1 h2
  · exact Or.inr (Or.inl rfl)
  · exact Or.inr (Or.inr rfl)
  · exact Or.inl rfl

/-- C4 counterexample. The raw azimuth series 0, 170, 340, 150, 320, 130 (all
values in the interval from 0 inclusive to 360 exclusive) unwraps to
0, 170, 340, 510, 680, 490, whose final corrected step 490 - 680 = -190 is not
within plus-or-minus 180 degrees, refuting the claim that the single
plus-or-minus-360 correction always brings the step within 180 degrees of the
previous unwrapped value. -/
theorem c4_counterexample :
    (∀ z ∈ ([0, 170, 340, 150, 320, 130] : List ℚ), 0 ≤ z ∧ z < 360) ∧
    unwrap ([0, 170, 340, 150, 320, 130] : List ℚ) = [0, 170, 340, 510, 680, 490] ∧
    ¬ List.Chain' (fun a b => |b - a| ≤ 180) (unwrap ([0, 170, 340, 150, 320, 130] : List ℚ)) := by
  have h : unwrap ([0, 170, 340, 150, 320, 130] : List ℚ) = [0, 170, 340, 510, 680, 490] := by
    norm_num [unwrap, unwrapFrom, wrapCorrect]
  refine ⟨?_, h, ?_⟩
  · intro z hz
    fin_cases hz <;> norm_num
  · rw [h]
    norm_num [List.chain'_cons, List.chain'_singleton]

/-- C4 (amended): whenever the apparent jump exceeds 180 degrees the correction
adds or subtracts exactly 360; when it does not, the sample is unchanged; the
corrected step from the previous unwrapped value is within plus-or-minus 180
degrees provided the apparent jump is at most 540 degrees (a single wrap);
and unwrapping never modifies the times or the altitude values of a sample
series. -/
theorem c4_unwrap_step (prev z : ℚ) :
    (|prev - z| > 180 → wrapCorrect prev z = z + 360 ∨ wrapCorrect prev z = z - 360) ∧
    (|prev - z| ≤ 180 → wrapCorrect prev z = z) ∧
    (|prev - z| ≤ 540 → |wrapCorrect prev z - prev| ≤ 180) ∧
    (∀ l : List Sample,
      (prepare l).map (fun s => (s.1, s.2.1)) = l.map (fun s => (s.1, s.2.1))) := by
  refine ⟨?_, ?_, ?_, prepare_time_alt⟩
  · intro h
    unfold wrapCorrect
    rw [if_pos h]
    split_ifs with h2
    · exact Or.inl rfl
    · exact Or.inr rfl
  · intro h
    unfold wrapCorrect
    rw [if_neg (by linarith)]
  · intro h540
    obtain ⟨hl, hr⟩ := abs_le.mp h540
    unfold wrapCorrect
    split_ifs with h1 h2
    · have hpz : |prev - z| = prev - z := abs_of_pos (by linarith)
      rw [hpz] at h1
      rw [abs_le]
      constructor <;> linarith
    · push_neg at h2
      have hpz : |prev - z| = -(prev - z) := abs_of_nonpos (by linarith)
      rw [hpz] at h1
      rw [abs_le]
      constructor <;> linarith
    · push_neg at h1
      rw [abs_sub_comm] at h1
      exact h1

/-- Witness for the amended C4 at concrete inputs: a jump of 360 degrees (from
unwrapped 370 to raw 10) is corrected by adding exactly 360, a jump of 100
degrees is left alone, and both corrected steps are within 180 degrees. -/
theorem c4_witness :
    (wrapCorrect 370 10 = 10 + 360 ∨ wrapCorrect 370 10 = 10 - 360) ∧
    wrapCorrect 100 150 = 150 ∧
    |wrapCorrect 370 10 - 370| ≤ 180 ∧
    (prepare [((0 : ℚ), (10 : ℚ), (350 : ℚ)), (30, 45, 10)]).map (fun s => (s.1, s.2.1)) =
      ([((0 : ℚ), (10 : ℚ), (350 : ℚ)), (30, 45, 10)] : List Sample).map (fun s => (s.1, s.2.1)) := by
  refine ⟨(c4_unwrap_step 370 10).1 (by norm_num), ?_, ?_, ?_⟩
  · exact (c4_unwrap_step 100 150).2.1 (by norm_num)
  · exact (c4_unwrap_step 370 10).2.2.1 (by norm_num)
  · exact (c4_unwrap_step 0 0).2.2.2 _

/-- C5 counterexample. Unwrapping is not idempotent on every raw input series:
for the raw series 0, 170, 340, 150, 320, 130 the unwrapped output ends with
the step 680 to 490, which a second application of unwrap corrects again to
850, so unwrap (unwrap s) differs from unwrap s. -/
theorem c5_counterexample :
    unwrap (unwrap ([0, 170, 340, 150, 320, 130] : List ℚ)) ≠
      unwrap ([0, 170, 340, 150, 320, 130] : List ℚ) := by
  have h1 : unwrap ([0, 170, 340, 150, 320, 130] : List ℚ) = [0, 170, 340, 510, 680, 490] := by
    norm_num [unwrap, unwrapFrom, wrapCorrect]
  have h2 : unwrap ([0, 170, 340, 510, 680, 490] : List ℚ) = [0, 170, 340, 510, 680, 850] := by
    norm_num [unwrap, unwrapFrom, wrapCorrect]
  rw [h1, h2]
  norm_num

theorem unwrapFrom_fixed (prev : ℚ) (l : List ℚ)
    (h : List.Chain' (fun a b => |b - a| ≤ 180) (prev :: l)) : unwrapFrom prev l = l := by
  induction l generalizing prev with
  | nil => rfl
  | cons z rest ih =>
    rw [List.chain'_cons] at h
    obtain ⟨h1, h2⟩ := h
    have hz : wrapCorrect prev z = z := by
      unfold wrapCorrect
      rw [if_neg]
      rw [abs_sub_comm] at h1
      push_neg
      exact h1
    simp only [unwrapFrom, hz]
    rw [ih z h2]

/-- C5 (amended): applying unwrap to a series whose every consecutive step is
already within plus-or-minus 180 degrees (in particular to any series the
algorithm produced from a single-wrap input) changes no value; idempotence
holds exactly on such outputs, not for every raw input series. -/
theorem c5_unwrap_fixed (l : List ℚ)
    (h : List.Chain' (fun a b => |b - a| ≤ 180) l) : unwrap l = l := by
  cases l with
  | nil => rfl
  | cons z rest =>
    simp only [unwrap]
    rw [unwrapFrom_fixed z rest h]

/-- Witness for the amended C5: the step-bounded series 0, 170, 340 is left
unchanged by unwrap. -/
theorem c5_witness : unwrap ([0, 170, 340] : List ℚ) = [0, 170, 340] :=
  c5_unwrap_fixed _ (by norm_num [List.chain'_cons, List.chain'_singleton])

/-! ### Rate feasibility check (generate_trajectory, utils.py lines 182-213) -/

/-- A consecutive pair of prepared samples is feasible when the implied rate
Delta-value over Delta-time times 3600 arcseconds per second is within the
maximum slew rate on both the altitude and the azimuth axis. -/
def rateOkPair (maxR : ℚ) (p q : Sample) : Prop :=
  |(q.2.1 - p.2.1) / (q.1 - p.1) * 3600| ≤ maxR ∧
  |(q.2.2 - p.2.2) / (q.1 - p.1) * 3600| ≤ maxR

instance (maxR : ℚ) (p q : Sample) : Decidable (rateOkPair maxR p q) := by
  unfold rateOkPair
  infer_instance

/-- The rate feasibility loop of generate_trajectory, carrying the previous
time, altitude and unwrapped azimuth (lti, lalt, laz): for each subsequent
sample it unwraps the azimuth, computes both implied rates over the time
difference, and succeeds only when both are within the limit; the assertion
failure of the source corresponds to the result false. -/
def rateCheckFrom (maxR lt lalt laz : ℚ) : List Sample → Bool
  | [] => true
  | (t, a, z) :: rest =>
    let z' := wrapCorrect laz z
    (decide (|(a - lalt) / (t - lt) * 3600| ≤ maxR) &&
      decide (|(z' - laz) / (t - lt) * 3600| ≤ maxR)) &&
      rateCheckFrom maxR t a z' rest

/-- The rate feasibility check over a whole sample series; the first sample
has no rate (the lalt-is-None branch of the source). -/
def rateCheck (maxR : ℚ) : List Sample → Bool
  | [] => true
  | (t, a, z) :: rest => rateCheckFrom maxR t a z rest

theorem rateCheckFrom_eq_chain (maxR lt lalt laz : ℚ) (rest : List Sample) :
    rateCheckFrom maxR lt lalt laz rest = true ↔
      List.Chain' (rateOkPair maxR) ((lt, lalt, laz) :: prepareFrom laz rest) := by
  induction rest generalizing lt lalt laz with
  | nil => simp [rateCheckFrom, prepareFrom]
  | cons s rs ih =>
    obtain ⟨t, a, z⟩ := s
    simp only [rateCheckFrom, prepareFrom, List.chain'_cons, Bool.and_eq_true,
      decide_eq_true_eq, ih, rateOkPair, and_assoc]

theorem rateCheck_eq_chain (maxR : ℚ) (samples : List Sample) :
    rateCheck maxR samples = true ↔ List.Chain' (rateOkPair maxR) (prepare samples) := by
  cases samples with
  | nil => simp [rateCheck, prepare]
  | cons s rest =>
    obtain ⟨t, a, z⟩ := s
    simpa [rateCheck, prepare] using rateCheckFrom_eq_chain maxR t a z rest

/-- C2: the rate feasibility check fails if and only if some consecutive pair
of the prepared series (altitudes as sampled, azimuths unwrapped) implies a
rate of strictly more than the maximum slew rate on some axis, where the
implied rate of a pair is Delta-value over Delta-time times 3600; in
particular every series whose implied rates are all at or below the limit is
accepted. -/
theorem c2_rate_check (maxR : ℚ) (samples : List Sample)
    (hmono : List.Chain' (fun a b => a < b) (samples.map (fun s => s.1))) :
    rateCheck maxR samples = false ↔
      ∃ i, ∃ h : i < (prepare samples).length - 1,
        maxR < |(((prepare samples).get ⟨i + 1, by omega⟩).2.1 -
              ((prepare samples).get ⟨i, by omega⟩).2.1) /
            (((prepare samples).get ⟨i + 1, by omega⟩).1 -
              ((prepare samples).get ⟨i, by omega⟩).1) * 3600| ∨
        maxR < |(((prepare samples).get ⟨i + 1, by omega⟩).2.2 -
              ((prepare samples).get ⟨i, by omega⟩).2.2) /
            (((prepare samples).get ⟨i + 1, by omega⟩).1 -
              ((prepare samples).get ⟨i, by omega⟩).1) * 3600| := by
  rw [← Bool.not_eq_true, rateCheck_eq_chain, List.chain'_iff_get]
  push_neg
  constructor
  · rintro ⟨i, h, hv⟩
    rw [rateOkPair, not_and_or] at hv
    refine ⟨i, h, ?_⟩
    rcases hv with hv | hv
    · exact Or.inl (lt_of_not_le hv)
    · exact Or.inr (lt_of_not_le hv)
  · rintro ⟨i, h, hv⟩
    refine ⟨i, h, ?_⟩
    rw [rateOkPair, not_and_or]
    rcases hv with hv | hv
    · exact Or.inl (not_le_of_lt hv)
    · exact Or.inr (not_le_of_lt hv)

/-- Witness for C2 at a concrete input: over a 30 second interval an altitude
change of 10 degrees implies a rate of 1200 arcseconds per second, so a limit
of 600 makes the check fail; with limit 1300 the identical series (azimuth
rate 600) is accepted. -/
theorem c2_witness :
    rateCheck 600 [((0 : ℚ), (10 : ℚ), (350 : ℚ)), (30, 20, 355)] = false ∧
    rateCheck 1300 [((0 : ℚ), (10 : ℚ), (350 : ℚ)), (30, 20, 355)] = true := by
  have hm : List.Chain' (fun a b => a < b)
      (([((0 : ℚ), (10 : ℚ), (350 : ℚ)), (30, 20, 355)] : List Sample).map (fun s => s.1)) := by
    norm_num [List.chain'_cons, List.chain'_singleton]
  refine ⟨(c2_rate_check 600 _ hm).mpr ⟨0, ?_, Or.inl ?_⟩, ?_⟩
  · norm_num [prepare, prepareFrom]
  · norm_num [prepare, prepareFrom, wrapCorrect]
  · norm_num [rateCheck, rateCheckFrom, wrapCorrect]

/-! ### Boundary padding (generate_trajectory, utils.py lines 228-249) -/

/-- Append the end padding point: read the last and second to last points of
the list (points[-1] and points[-2] in the source) and append
last + multiplier times (last minus second-to-last) per axis; lists with
fewer than two points are returned unchanged (the source raises instead, but
this function is only ever applied to the prepended list of length at least
three). -/
def padEnd (m : ℚ) (l : List (ℚ × ℚ)) : List (ℚ × ℚ) :=
  match l.reverse with
  | p1 :: p2 :: _ => l ++ [(p1.1 + m * (p1.1 - p2.1), p1.2 + m * (p1.2 - p2.2))]
  | _ => l

/-- Append the end padding time: the last time of the list plus the pad. -/
def padEndT (pad : ℚ) (l : List ℚ) : List ℚ :=
  match l.reverse with
  | t1 :: _ => l ++ [t1 + pad]
  | [] => l

/-- The boundary padding of generate_trajectory: with at least two points and a
nonempty time grid, prepend the extrapolated start point at time first minus
pad, then append the extrapolated end point at time last plus pad; with fewer
points the access to the second point raises an index error in the source,
modelled as none. -/
def padTraj (pad m : ℚ) (points : List (ℚ × ℚ)) (times : List ℚ) :
    Option (List (ℚ × ℚ) × List ℚ) :=
  match points, times with
  | p0 :: p1 :: rest, t0 :: trest =>
    some (padEnd m ((p0.1 - m * (p1.1 - p0.1), p0.2 - m * (p1.2 - p0.2)) :: p0 :: p1 :: rest),
          padEndT pad ((t0 - pad) :: t0 :: trest))
  | _, _ => none

theorem padEnd_concat2 (m : ℚ) (init : List (ℚ × ℚ)) (a b : ℚ × ℚ) :
    padEnd m (init ++ [a, b]) =
      init ++ [a, b, (b.1 + m * (b.1 - a.1), b.2 + m * (b.2 - a.2))] := by
  have hrev : (init ++ [a, b]).reverse = b :: a :: init.reverse := by
    simp
  simp [padEnd, hrev]

theorem padEndT_concat (pad : ℚ) (init : List ℚ) (t : ℚ) :
    padEndT pad (init ++ [t]) = init ++ [t, t + pad] := by
  have hrev : (init ++ [t]).reverse = t :: init.reverse := by
    simp
  simp [padEndT, hrev]

theorem exists_concat1 {α : Type} (x : α) (l : List α) :
    ∃ init last, x :: l = init ++ [last] := by
  induction l using List.reverseRecOn with
  | nil => exact ⟨[], x, rfl⟩
  | append_singleton ys y ih => exact ⟨x :: ys, y, by simp⟩

theorem exists_concat2 {α : Type} (x y : α) (l : List α) :
    ∃ init a b, x :: y :: l = init ++ [a, b] := by
  induction l using List.reverseRecOn with
  | nil => exact ⟨[], x, y, rfl⟩
  | append_singleton ys b ih =>
    obtain ⟨init, a', b', hab⟩ := ih
    refine ⟨init ++ [a'], b', b, ?_⟩
    rw [show x :: y :: (ys ++ [b]) = (x :: y :: ys) ++ [b] by simp, hab]
    simp

/-- C6: for every input with at least two waypoints, a matching time grid and a
positive pad, the padding produces exactly the original series with the
extrapolated start point prepended at time first minus pad and the extrapolated
symmetric end point appended at time last plus pad; the result has n plus two
points, a time grid of the same length (shared by both axes) that is strictly
increasing, and hence at least four points. -/
theorem c6_padding (pad m t0 : ℚ) (p0 p1 : ℚ × ℚ) (rest : List (ℚ × ℚ)) (trest : List ℚ)
    (hlen : trest.length = rest.length + 1) (hpad : 0 < pad)
    (hmono : List.Chain' (fun a b => a < b) (t0 :: trest)) :
    ∃ pts tms, padTraj pad m (p0 :: p1 :: rest) (t0 :: trest) = some (pts, tms) ∧
      pts.length = (p0 :: p1 :: rest).length + 2 ∧
      tms.length = (t0 :: trest).length + 2 ∧
      tms.length = pts.length ∧ 4 ≤ pts.length ∧
      List.Chain' (fun a b => a < b) tms ∧
      (∀ tl, (t0 :: trest).getLast? = some tl →
        tms = (t0 - pad) :: (t0 :: trest) ++ [tl + pad]) ∧
      (∀ q1 q2, (p0 :: p1 :: rest).getLast? = some q1 →
          (p0 :: p1 :: rest).dropLast.getLast? = some q2 →
        pts = (p0.1 - m * (p1.1 - p0.1), p0.2 - m * (p1.2 - p0.2)) :: (p0 :: p1 :: rest) ++
          [(q1.1 + m * (q1.1 - q2.1), q1.2 + m * (q1.2 - q2.2))]) := by
  obtain ⟨pinit, a, b, hab⟩ := exists_concat2 p0 p1 rest
  obtain ⟨tinit, tl, htl⟩ := exists_concat1 t0 trest
  set nf : ℚ × ℚ := (p0.1 - m * (p1.1 - p0.1), p0.2 - m * (p1.2 - p0.2)) with hnf
  have hpts : padEnd m (nf :: p0 :: p1 :: rest) =
      nf :: (p0 :: p1 :: rest) ++ [(b.1 + m * (b.1 - a.1), b.2 + m * (b.2 - a.2))] := by
    rw [hab, show nf :: (pinit ++ [a, b]) = (nf :: pinit) ++ [a, b] by simp, padEnd_concat2]
    simp
  have htms : padEndT pad ((t0 - pad) :: t0 :: trest) =
      (t0 - pad) :: (t0 :: trest) ++ [tl + pad] := by
    rw [htl, show (t0 - pad) :: (tinit ++ [tl]) = ((t0 - pad) :: tinit) ++ [tl] by simp,
      padEndT_concat]
    simp
  have hlast : (t0 :: trest).getLast? = some tl := by
    rw [htl]
    exact List.getLast?_concat _
  have hplast : (p0 :: p1 :: rest).getLast? = some b := by
    rw [hab, show pinit ++ [a, b] = (pinit ++ [a]) ++ [b] by simp]
    exact List.getLast?_concat _
  have hplast2 : (p0 :: p1 :: rest).dropLast.getLast? = some a := by
    rw [hab, show pinit ++ [a, b] = (pinit ++ [a]) ++ [b] by simp, List.dropLast_concat]
    exact List.getLast?_concat _
  refine ⟨_, _, rfl, ?_, ?_, ?_, ?_, ?_, ?_, ?_⟩
  · rw [hpts]
    simp
  · rw [htms]
    simp
  · rw [htms, hpts]
    simp only [List.length_cons, List.length_append, List.length_cons, List.length_nil]
    simp [hlen]
  · rw [hpts]
    simp
  · rw [htms, List.chain'_append]
    refine ⟨List.chain'_cons.mpr ⟨by linarith, hmono⟩, List.chain'_singleton _, ?_⟩
    intro x hx y hy
    simp only [List.head?_cons, Option.mem_def, Option.some.injEq] at hy
    rw [List.getLast?_cons_cons, hlast] at hx
    simp only [Option.mem_def, Option.some.injEq] at hx
    subst hx
    subst hy
    linarith
  · intro tl' htl'
    rw [hlast] at htl'
    injection htl' with h
    subst h
    exact htms
  · intro q1 q2 hq1 hq2
    rw [hplast] at hq1
    rw [hplast2] at hq2
    injection hq1 with h1
    injection hq2 with h2
    subst h1
    subst h2
    exact hpts

/-- Witness for C6: padding the two-waypoint series of the scenario (altitude
10 then 45, unwrapped azimuth 350 then 370, times 0 and 30) with pad 2 and
multiplier 1 succeeds and yields the strictly increasing padded time grid
-2, 0, 30, 32. -/
theorem c6_witness :
    ∃ pts tms,
      padTraj 2 1 [((10 : ℚ), (350 : ℚ)), (45, 370)] [(0 : ℚ), 30] = some (pts, tms) ∧
      List.Chain' (fun a b => a < b) tms ∧
      tms = [-2, 0, 30, 32] := by
  obtain ⟨pts, tms, h1, _, _, _, _, h6, h7, _⟩ :=
    c6_padding 2 1 0 (10, 350) (45, 370) [] [30] (by simp) (by norm_num)
      (by norm_num [List.chain'_cons, List.chain'_singleton])
  refine ⟨pts, tms, h1, h6, ?_⟩
  have := h7 30 (by simp)
  rw [this]
  norm_num

/-! ### Ephemeris sampling grid (generate_trajectory, utils.py lines 154-164
    and tracker/model.py get_duration_seconds) -/

/-- Number of elements of the half-open integer range from start to stop with
the given step, following Python range semantics: the ceiling of
(stop - start) / step, and zero when stop is at most start. -/
def pyRangeLen (start stop step : ℕ) : ℕ := (stop - start + step - 1) / step

/-- The Python range(start, stop, step) as a list of naturals. -/
def pyRange (start stop step : ℕ) : List ℕ :=
  (List.range (pyRangeLen start stop step)).map (fun j => start + j * step)

/-- Relative sample times of the trajectory grid in seconds since the first
sample: range(start.second, start.second + duration, step) with each sample
time reduced by the first, which is the times list built at utils.py line
223. -/
def sampleTimes (d step : ℕ) : List ℚ :=
  (pyRange 0 d step).map (fun s : ℕ => (s : ℚ))

theorem padTraj_isSome_iff (pad m : ℚ) (points : List (ℚ × ℚ)) (times : List ℚ) :
    (padTraj pad m points times).isSome ↔ 2 ≤ points.length ∧ 1 ≤ times.length := by
  cases points with
  | nil => simp [padTraj]
  | cons p0 ps =>
    cases ps with
    | nil => simp [padTraj]
    | cons p1 rest =>
      cases times with
      | nil => simp [padTraj]
      | cons t0 trest =>
        simp only [padTraj, Option.isSome_some, List.length_cons, true_iff]
        constructor <;> omega

/-- C10: with positive duration d and positive step, the sampling grid has
n = ceiling of d divided by step samples (characterized by
d at most step times n and step times n minus one less than d); the grid has
at least two samples exactly when the duration exceeds the step; boundary
padding succeeds exactly in that case, and with a single sample the access to
the second point fails, modelled as none. -/
theorem c10_precondition (d step : ℕ) (pad m : ℚ) (altv azv : ℕ → ℚ)
    (hd : 1 ≤ d) (hs : 1 ≤ step) :
    (d ≤ step * pyRangeLen 0 d step ∧ step * (pyRangeLen 0 d step - 1) < d) ∧
    (2 ≤ pyRangeLen 0 d step ↔ step < d) ∧
    ((padTraj pad m ((pyRange 0 d step).map (fun t => (altv t, azv t)))
        (sampleTimes d step)).isSome ↔ 2 ≤ pyRangeLen 0 d step) ∧
    (pyRangeLen 0 d step = 1 →
      padTraj pad m ((pyRange 0 d step).map (fun t => (altv t, azv t)))
        (sampleTimes d step) = none) := by
  have ha : pyRangeLen 0 d step = (d + step - 1) / step := by
    simp [pyRangeLen]
  have hmod := Nat.div_add_mod (d + step - 1) step
  have hlt : (d + step - 1) % step < step := Nat.mod_lt _ (by omega)
  have hceil : d ≤ step * pyRangeLen 0 d step ∧ step * (pyRangeLen 0 d step - 1) < d := by
    rw [ha]
    have hn1 : 1 ≤ (d + step - 1) / step := by
      rw [Nat.le_div_iff_mul_le (by omega)]
      omega
    obtain ⟨k, hk⟩ : ∃ k, (d + step - 1) / step = k + 1 :=
      ⟨(d + step - 1) / step - 1, by omega⟩
    rw [hk] at hmod ⊢
    have hexp : step * (k + 1) = step * k + step := by ring
    have hred : k + 1 - 1 = k := by omega
    rw [hred]
    omega
  have h2iff : 2 ≤ pyRangeLen 0 d step ↔ step < d := by
    rw [ha, Nat.le_div_iff_mul_le (by omega)]
    omega
  have hlp : ((pyRange 0 d step).map (fun t : ℕ => (altv t, azv t))).length =
      pyRangeLen 0 d step := by
    rw [pyRange, List.length_map, List.length_map, List.length_range]
  have hlt2 : (sampleTimes d step).length = pyRangeLen 0 d step := by
    rw [sampleTimes, List.length_map, pyRange, List.length_map, List.length_range]
  have hiff : (padTraj pad m ((pyRange 0 d step).map (fun t => (altv t, azv t)))
      (sampleTimes d step)).isSome ↔ 2 ≤ pyRangeLen 0 d step := by
    rw [padTraj_isSome_iff, hlp, hlt2]
    omega
  refine ⟨hceil, h2iff, hiff, ?_⟩
  intro h1
  have : ¬ (padTraj pad m ((pyRange 0 d step).map (fun t => (altv t, azv t)))
      (sampleTimes d step)).isSome := by
    rw [hiff]
    omega
  exact Option.not_isSome_iff_eq_none.mp this

/-- Witness for C10 at concrete inputs: duration 61 with step 30 yields three
samples (the ceiling of 61 over 30), which exceeds one because 30 is less than
61, and padding succeeds; duration 30 with step 30 yields a single sample and
padding fails. -/
theorem c10_witness :
    (2 ≤ pyRangeLen 0 61 30 ↔ 30 < 61) ∧
    (padTraj 2 1 ((pyRange 0 61 30).map (fun t : ℕ => ((t : ℚ), (t : ℚ))))
      (sampleTimes 61 30)).isSome ∧
    padTraj 2 1 ((pyRange 0 30 30).map (fun t : ℕ => ((t : ℚ), (t : ℚ))))
      (sampleTimes 30 30) = none := by
  obtain ⟨h1, h2, h3, h4⟩ :=
    c10_precondition 61 30 2 1 (fun t => (t : ℚ)) (fun t => (t : ℚ)) (by norm_num) (by norm_num)
  obtain ⟨g1, g2, g3, g4⟩ :=
    c10_precondition 30 30 2 1 (fun t => (t : ℚ)) (fun t => (t : ℚ)) (by norm_num) (by norm_num)
  refine ⟨h2, ?_, ?_⟩
  · rw [h3]
    decide
  · exact g4 (by decide)

/-! ### Real-time tracking loop (track_satellite, utils.py lines 307-433) -/

/-- The NexStar tracking modes of the hand control unit. -/
inductive TrackingMode
  | off
  | altAz
  | eqNorth
  | eqSouth
deriving DecidableEq

/-- Mount driver commands issued by the program, in the order they are sent
over the serial connection. -/
inductive Call
  | connect
  | setLocation
  | setTime
  | gotoAzmAlt (az alt : ℚ)
  | gotoInProgress
  | getTrackingMode
  | setTrackingMode (m : TrackingMode)
  | getPosition
  | slewVariable (azRate altRate : ℤ)
  | slewStop
deriving DecidableEq

/-- Python round to the nearest integer with ties going to the even integer,
as applied to the commanded rates at utils.py lines 392-393. -/
def pyRound (q : ℚ) : ℤ :=
  if q - ⌊q⌋ < 1 / 2 then ⌊q⌋
  else if 1 / 2 < q - ⌊q⌋ then ⌊q⌋ + 1
  else if 2 ∣ ⌊q⌋ then ⌊q⌋ else ⌊q⌋ + 1

/-- Parameters and external inputs of one run of track_satellite: the stashed
original tracking mode, the configured duration and pad, the error-sampling
cadence num_loops_for_log, the trajectory evaluation (valsAlt is the altitude
position-velocity pair vals[0] and valsAz the azimuth pair vals[1]), the
mount position reads per tick, the azimuth of the position read before the
loop, the wall clock of each tick measured from start_time, the number of
goto progress polls, and the trajectory start knot time used by the initial
goto. -/
structure LoopEnv where
  original : TrackingMode
  durationSeconds : ℚ
  pad : ℚ
  nlog : ℕ
  valsAlt : ℚ → ℚ × ℚ
  valsAz : ℚ → ℚ × ℚ
  meas : ℕ → ℚ × ℚ
  meas0 : ℚ
  sched : ℕ → ℚ
  polls : ℕ
  t0 : ℚ

/-- The while condition at utils.py line 383: keep looping while the wall
clock has advanced less than the trajectory duration plus twice the pad. -/
def loopCond (env : LoopEnv) (i : ℕ) : Bool :=
  decide (env.sched i < env.durationSeconds + 2 * env.pad)

/-- Relative time of a tick (utils.py line 387): wall clock minus the padded
start time, negative during the initial pad. -/
def relTime (env : LoopEnv) (i : ℕ) : ℚ := env.sched i - env.pad

/-- Whether tick i samples the positional error: loop_counter modulo
num_loops_for_log equals zero (utils.py line 400). -/
def logTick (env : LoopEnv) (i : ℕ) : Bool := i % env.nlog == 0

/-- The rate slew command of a tick: the trajectory velocities at the tick's
relative time, converted to arcseconds per second by multiplying by 3600 and
rounded to integers (utils.py lines 391-396). -/
def tickSlew (env : LoopEnv) (i : ℕ) : Call :=
  Call.slewVariable (pyRound ((env.valsAz (relTime env i)).2 * 3600))
    (pyRound ((env.valsAlt (relTime env i)).2 * 3600))

/-- All mount calls of one complete tick body, in order: the rate slew, then
the position read on an error-sampling tick. -/
def tickCalls (env : LoopEnv) (i : ℕ) : List Call :=
  tickSlew env i :: (if logTick env i then [Call.getPosition] else [])

/-- The positional error sample appended on an error-sampling tick (utils.py
line 410): relative time first, then target azimuth minus the wrap-corrected
measured azimuth, then target altitude minus measured altitude. -/
def tickEntry (env : LoopEnv) (i : ℕ) (lazm : ℚ) : ℚ × ℚ × ℚ :=
  (relTime env i,
   (env.valsAz (relTime env i)).1 - wrapCorrect lazm (env.meas i).1,
   (env.valsAlt (relTime env i)).1 - (env.meas i).2)

/-- Whether an injected failure fires at tick i, and after how many of the
tick body's mount calls. -/
def failsHere (failAt : Option (ℕ × ℕ)) (i : ℕ) : Option ℕ :=
  match failAt with
  | some (t, k) => if t = i then some k else none
  | none => none

/-- The tracking loop from tick i with previous logged azimuth lazm: emits the
mount calls and the accumulated error samples; a tick at which the injected
failure fires emits only a prefix of its body's calls and the loop terminates
abruptly, the exception propagating to the cleanup; the fuel bounds the
recursion and exceeds the executed tick count wherever a theorem needs the
exact shape of a complete run. -/
def loopRun (env : LoopEnv) (failAt : Option (ℕ × ℕ)) :
    ℕ → ℕ → ℚ → List Call × List (ℚ × ℚ × ℚ)
  | 0, _, _ => ([], [])
  | fuel + 1, i, lazm =>
    if loopCond env i then
      match failsHere failAt i with
      | some k => ((tickCalls env i).take k, [])
      | none =>
        let lazm' := if logTick env i then wrapCorrect lazm (env.meas i).1 else lazm
        let r := loopRun env failAt fuel (i + 1) lazm'
        (tickCalls env i ++ r.1,
         (if logTick env i then [tickEntry env i lazm] else []) ++ r.2)
    else ([], [])

theorem loopRun_stop (env : LoopEnv) (failAt : Option (ℕ × ℕ)) (fuel i : ℕ) (lazm : ℚ)
    (h : loopCond env i = false) : loopRun env failAt (fuel + 1) i lazm = ([], []) := by
  simp [loopRun, h]

theorem loopRun_fail (env : LoopEnv) (failAt : Option (ℕ × ℕ)) (fuel i k : ℕ) (lazm : ℚ)
    (hc : loopCond env i = true) (hf : failsHere failAt i = some k) :
    loopRun env failAt (fuel + 1) i lazm = ((tickCalls env i).take k, []) := by
  simp [loopRun, hc, hf]

theorem loopRun_step (env : LoopEnv) (failAt : Option (ℕ × ℕ)) (fuel i : ℕ) (lazm : ℚ)
    (hc : loopCond env i = true) (hf : failsHere failAt i = none) :
    loopRun env failAt (fuel + 1) i lazm =
      (tickCalls env i ++ (loopRun env failAt fuel (i + 1)
          (if logTick env i then wrapCorrect lazm (env.meas i).1 else lazm)).1,
       (if logTick env i then [tickEntry env i lazm] else []) ++
         (loopRun env failAt fuel (i + 1)
           (if logTick env i then wrapCorrect lazm (env.meas i).1 else lazm)).2) := by
  simp [loopRun, hc, hf]

/-- Mount calls issued before the loop: the goto to the trajectory start
values, the goto progress polling, reading and stashing the tracking mode,
disabling tracking, and the initial position read (utils.py lines 323-374). -/
def preCalls (env : LoopEnv) : List Call :=
  Call.gotoAzmAlt (env.valsAz env.t0).1 (env.valsAlt env.t0).1 ::
    (List.replicate env.polls Call.gotoInProgress ++
      [Call.getTrackingMode, Call.setTrackingMode TrackingMode.off, Call.getPosition])

/-- The full mount call trace of track_satellite: the pre-loop calls, the
loop calls, possibly cut short by an injected failure, and then the guaranteed
cleanup of the finally block, slew_stop followed by restoring the stashed
tracking mode (utils.py lines 429-433). -/
def trackTrace (env : LoopEnv) (failAt : Option (ℕ × ℕ)) (fuel : ℕ) : List Call :=
  preCalls env ++ (loopRun env failAt fuel 0 env.meas0).1 ++
    [Call.slewStop, Call.setTrackingMode env.original]

theorem loopRun_calls (env : LoopEnv) (failAt : Option (ℕ × ℕ)) :
    ∀ (fuel i : ℕ) (lazm : ℚ), ∀ c ∈ (loopRun env failAt fuel i lazm).1,
      (∃ a b, c = Call.slewVariable a b) ∨ c = Call.getPosition := by
  intro fuel
  induction fuel with
  | zero =>
    intro i lazm c hc
    simp [loopRun] at hc
  | succ fuel ih =>
    intro i lazm c hc
    by_cases hcond : loopCond env i
    · cases hfail : failsHere failAt i with
      | some k =>
        rw [loopRun_fail env failAt fuel i k lazm hcond hfail] at hc
        have hmem : c ∈ tickCalls env i := List.take_subset _ _ hc
        rw [tickCalls, List.mem_cons] at hmem
        rcases hmem with hmem | hmem
        · exact Or.inl ⟨_, _, hmem⟩
        · rcases (if logTick env i then [Call.getPosition] else []).eq_nil_or_concat
            with _ | _
          all_goals
            cases hlog : logTick env i <;> rw [hlog] at hmem <;> simp at hmem
          all_goals exact Or.inr hmem
      | none =>
        rw [loopRun_step env failAt fuel i lazm hcond hfail] at hc
        simp only [List.mem_append] at hc
        rcases hc with hc | hc
        · rw [tickCalls, List.mem_cons] at hc
          rcases hc with hc | hc
          · exact Or.inl ⟨_, _, hc⟩
          · cases hlog : logTick env i <;> rw [hlog] at hc <;> simp at hc
            exact Or.inr hc
        · exact ih (i + 1) _ c hc
    · rw [loopRun_stop env failAt fuel i lazm (by simpa using hcond)] at hc
      simp at hc

theorem preCalls_count_set (env : LoopEnv) (mo : TrackingMode) :
    (preCalls env).count (Call.setTrackingMode mo) =
      if mo = TrackingMode.off then 1 else 0 := by
  by_cases hmo : mo = TrackingMode.off
  · subst hmo
    rw [if_pos rfl, preCalls, List.count_cons_of_ne (by simp), List.count_append,
      List.count_eq_zero.mpr (by simp [List.mem_replicate]),
      List.count_cons_of_ne (by simp), List.count_cons_self,
      List.count_cons_of_ne (by simp), List.count_nil]
  · rw [if_neg hmo]
    refine List.count_eq_zero.mpr ?_
    simp [preCalls, List.mem_replicate]
    intro hx
    exact hmo hx

/-- C1 (amended): for every execution of the tracking loop, completing
normally, exhausting any tick count, or aborted by a failure injected at any
point inside any tick body, the trace ends with exactly the cleanup pair
slew_stop then set_tracking_mode of the stashed original mode, and slew_stop
is issued exactly once; set_tracking_mode with the stashed original mode is
issued exactly once provided the stashed mode is not OFF, and exactly twice
when it is OFF, the pre-loop disable step then issuing an identical call
while the cleanup restore itself still runs exactly once. -/
theorem c1_cleanup (env : LoopEnv) (failAt : Option (ℕ × ℕ)) (fuel : ℕ) :
    (trackTrace env failAt fuel).count Call.slewStop = 1 ∧
    (∃ pre, trackTrace env failAt fuel =
      pre ++ [Call.slewStop, Call.setTrackingMode env.original]) ∧
    (env.original ≠ TrackingMode.off →
      (trackTrace env failAt fuel).count (Call.setTrackingMode env.original) = 1) ∧
    (env.original = TrackingMode.off →
      (trackTrace env failAt fuel).count (Call.setTrackingMode env.original) = 2) := by
  have hpre1 : Call.slewStop ∉ preCalls env := by
    simp [preCalls, List.mem_replicate]
  have hloop1 : Call.slewStop ∉ (loopRun env failAt fuel 0 env.meas0).1 := by
    intro hx
    rcases loopRun_calls env failAt fuel 0 env.meas0 Call.slewStop hx with ⟨a, b, hab⟩ | hab
    · exact absurd hab (by simp)
    · exact absurd hab (by simp)
  have hloop2 : Call.setTrackingMode env.original ∉ (loopRun env failAt fuel 0 env.meas0).1 := by
    intro hx
    rcases loopRun_calls env failAt fuel 0 env.meas0 _ hx with ⟨a, b, hab⟩ | hab
    · exact absurd hab (by simp)
    · exact absurd hab (by simp)
  refine ⟨?_, ⟨preCalls env ++ (loopRun env failAt fuel 0 env.meas0).1, by
    rw [trackTrace, List.append_assoc]⟩, ?_, ?_⟩
  · rw [trackTrace]
    rw [List.count_append, List.count_append]
    rw [List.count_eq_zero.mpr hpre1, List.count_eq_zero.mpr hloop1]
    simp
  · intro h
    rw [trackTrace]
    rw [List.count_append, List.count_append]
    rw [preCalls_count_set, if_neg h, List.count_eq_zero.mpr hloop2]
    simp [h]
  · intro h
    rw [trackTrace]
    rw [List.count_append, List.count_append]
    rw [preCalls_count_set, if_pos h, List.count_eq_zero.mpr hloop2]
    rw [List.count_cons_of_ne (by simp), List.count_cons_self, List.count_nil]

/-- A concrete loop environment whose stashed tracking mode is off: duration
1 second, pad 1 second, ticks three seconds apart so exactly one tick runs,
error sampling every tick, constant zero trajectory and measurements. -/
def cEnvOff : LoopEnv :=
  { original := TrackingMode.off
    durationSeconds := 1
    pad := 1
    nlog := 1
    valsAlt := fun _ => (0, 0)
    valsAz := fun _ => (0, 0)
    meas := fun _ => (0, 0)
    meas0 := 0
    sched := fun i => 3 * (i : ℚ)
    polls := 1
    t0 := 0 }

/-- C1 counterexample. When the mount is already in tracking mode OFF at loop
entry, the stashed original mode equals OFF and the pre-loop disable step
issues the very same call as the cleanup restore, so set_tracking_mode with
the stashed original mode is invoked twice, not exactly once, in a normally
completing run. -/
theorem c1_counterexample :
    cEnvOff.original = TrackingMode.off ∧
    (trackTrace cEnvOff none 2).count (Call.setTrackingMode cEnvOff.original) = 2 := by
  refine ⟨rfl, ?_⟩
  norm_num [trackTrace, preCalls, loopRun, loopCond, failsHere, logTick, tickCalls, tickSlew,
    cEnvOff, List.count_append, List.count_cons, List.replicate, pyRound]
  decide

/-- The environment of the C1 witness: as cEnvOff but the stashed mode is
alt-azimuth tracking. -/
def cEnvAltAz : LoopEnv := { cEnvOff with original := TrackingMode.altAz }

/-- Witness for the amended C1 at concrete inputs: with the stashed mode
alt-azimuth and a failure injected into the first tick after its first mount
call, slew_stop and the restoring set_tracking_mode are each issued exactly
once; with the stashed mode OFF and a normal completion, slew_stop is still
issued exactly once while the OFF argument is sent exactly twice. -/
theorem c1_witness :
    (trackTrace cEnvAltAz (some (0, 1)) 2).count Call.slewStop = 1 ∧
    (trackTrace cEnvAltAz (some (0, 1)) 2).count (Call.setTrackingMode cEnvAltAz.original) = 1 ∧
    (trackTrace cEnvOff none 2).count Call.slewStop = 1 ∧
    (trackTrace cEnvOff none 2).count (Call.setTrackingMode cEnvOff.original) = 2 := by
  refine ⟨(c1_cleanup cEnvAltAz (some (0, 1)) 2).1,
    (c1_cleanup cEnvAltAz (some (0, 1)) 2).2.2.1 (by simp [cEnvAltAz, cEnvOff]),
    (c1_cleanup cEnvOff none 2).1,
    (c1_cleanup cEnvOff none 2).2.2.2 rfl⟩

/-- The environment of the C7 counterexample: duration 60 seconds, pad 2
seconds, wall clock advancing 38 seconds per tick, error sampling every fifth
tick. -/
def cEnvT : LoopEnv :=
  { cEnvOff with
    durationSeconds := 60
    pad := 2
    nlog := 5
    sched := fun i => 38 * (i : ℚ) }

/-- C7 counterexample. With duration 60 and step 30 the sampling grid is 0, 30
and the padded knot times are -2, 0, 30, 32, yet the loop exit condition
still admits a tick at wall clock 38 (38 is less than 60 plus twice the pad),
whose relative time 36 exceeds the last padded knot time 32; the loop run
indeed executes that second tick. So the exit condition does not keep the
evaluated time inside the trajectory domain. -/
theorem c7_counterexample :
    padTraj 2 1 [((10 : ℚ), (350 : ℚ)), (45, 370)] (sampleTimes 60 30) =
      some ([(-25, 330), (10, 350), (45, 370), (80, 390)], [-2, 0, 30, 32]) ∧
    loopCond cEnvT 1 = true ∧
    relTime cEnvT 1 = 36 ∧
    (loopRun cEnvT none 5 0 0).1.length = 3 ∧
    ¬ (relTime cEnvT 1 ≤ 32) := by
  have hst : sampleTimes 60 30 = [0, 30] := by
    norm_num [sampleTimes, pyRange, pyRangeLen, List.range_succ]
  refine ⟨?_, ?_, ?_, ?_, ?_⟩
  · rw [hst]
    norm_num [padTraj, padEnd, padEndT]
  · simp only [loopCond, cEnvT, cEnvOff, decide_eq_true_eq]
    norm_num
  · norm_num [relTime, cEnvT, cEnvOff]
  · norm_num [loopRun, loopCond, failsHere, logTick, tickCalls, tickSlew,
      cEnvT, cEnvOff, pyRound]
  · norm_num [relTime, cEnvT, cEnvOff]

/-- C7 (amended): every tick admitted by the loop exit condition has relative
time at least minus the pad (the first padded knot time, reached at wall
clock zero) and strictly below duration plus pad; the exit condition bounds
the evaluated time by duration plus pad, not by the last padded knot time. -/
theorem c7_tick_bounds (env : LoopEnv) (i : ℕ) (h0 : 0 ≤ env.sched i)
    (hc : loopCond env i = true) :
    -env.pad ≤ relTime env i ∧ relTime env i < env.durationSeconds + env.pad := by
  rw [loopCond, decide_eq_true_iff] at hc
  unfold relTime
  constructor <;> linarith

/-- Witness for the amended C7 at a concrete input: the first tick of the
counterexample environment has relative time between minus the pad and
duration plus pad. -/
theorem c7_witness :
    -cEnvT.pad ≤ relTime cEnvT 0 ∧ relTime cEnvT 0 < cEnvT.durationSeconds + cEnvT.pad := by
  refine c7_tick_bounds cEnvT 0 ?_ ?_
  · norm_num [cEnvT, cEnvOff]
  · simp only [loopCond, cEnvT, cEnvOff, decide_eq_true_eq]
    norm_num

/-- The environment of the C9 counterexample: the azimuth trajectory velocity
is one ten-thousandth of a degree per second everywhere. -/
def cEnvRound : LoopEnv := { cEnvOff with valsAz := fun _ => (0, 1 / 10000) }

/-- C9 counterexample. With azimuth velocity 1/10000 degree per second the
conversion to arcseconds per second gives 9/25, but the commanded azimuth
rate of the issued slew command is the rounded value 0, so the commanded rate
does not equal velocity times 3600. -/
theorem c9_counterexample :
    tickSlew cEnvRound 0 = Call.slewVariable 0 0 ∧
    ((cEnvRound.valsAz (relTime cEnvRound 0)).2 * 3600 : ℚ) ≠ ((0 : ℤ) : ℚ) := by
  constructor
  · norm_num [tickSlew, pyRound, relTime, cEnvRound, cEnvOff]
  · norm_num [relTime, cEnvRound, cEnvOff]

/-- Whether a mount call is a variable rate slew command. -/
def isSlew : Call → Bool
  | Call.slewVariable _ _ => true
  | _ => false

theorem tickCalls_filter_slew (env : LoopEnv) (i : ℕ) :
    (tickCalls env i).filter isSlew = [tickSlew env i] := by
  rw [tickCalls]
  cases hlog : logTick env i <;> simp [isSlew, tickSlew]

theorem loopRun_filter_slew (env : LoopEnv) (n : ℕ)
    (hrun : ∀ i, i < n → loopCond env i = true) (hstop : loopCond env n = false) :
    ∀ (fuel j : ℕ) (lazm : ℚ), j ≤ n → n ≤ j + fuel →
      ((loopRun env none fuel j lazm).1.filter isSlew) =
        (List.range' j (n - j)).map (fun i => tickSlew env i) := by
  intro fuel
  induction fuel with
  | zero =>
    intro j lazm hj hn
    have hj' : j = n := by omega
    subst hj'
    simp [loopRun]
  | succ fuel ih =>
    intro j lazm hj hn
    by_cases hjn : j = n
    · subst hjn
      rw [loopRun_stop env none fuel j lazm hstop]
      simp
    · have hjlt : j < n := by omega
      rw [loopRun_step env none fuel j lazm (hrun j hjlt) rfl]
      simp only [List.filter_append]
      rw [tickCalls_filter_slew, ih (j + 1) _ (by omega) (by omega)]
      rw [show n - j = (n - (j + 1)) + 1 by omega, List.range'_succ]
      simp

/-- C9 (amended): a complete run of the tracking loop issues exactly one rate
slew command per executed tick, and the commanded rates of the tick at index
i are the trajectory velocities at that tick's relative time converted to
arcseconds per second by multiplying by 3600 and then rounded to the nearest
integer (ties to even), azimuth rate first. -/
theorem c9_slew_rates (env : LoopEnv) (n fuel : ℕ) (lazm : ℚ)
    (hrun : ∀ i, i < n → loopCond env i = true) (hstop : loopCond env n = false)
    (hfuel : n ≤ fuel) :
    ((loopRun env none fuel 0 lazm).1.filter isSlew) =
      (List.range n).map (fun i =>
        Call.slewVariable (pyRound ((env.valsAz (relTime env i)).2 * 3600))
          (pyRound ((env.valsAlt (relTime env i)).2 * 3600))) := by
  rw [loopRun_filter_slew env n hrun hstop fuel 0 lazm (by omega) (by omega)]
  rw [List.range_eq_range']
  simp [tickSlew]

/-- The environment of the C9 witness: two one-second ticks, pad half a
second. -/
def cEnvW : LoopEnv :=
  { cEnvOff with
    durationSeconds := 1
    pad := 1 / 2
    sched := fun i => (i : ℚ) }

/-- Witness for the amended C9 at a concrete input: a two-tick run issues
exactly two slew commands, both with the rounded rates of the zero
trajectory. -/
theorem c9_witness :
    ((loopRun cEnvW none 2 0 0).1.filter isSlew) =
      [Call.slewVariable 0 0, Call.slewVariable 0 0] := by
  have hrun : ∀ i, i < 2 → loopCond cEnvW i = true := by
    intro i hi
    interval_cases i <;> simp only [loopCond, cEnvW, cEnvOff, decide_eq_true_eq] <;> norm_num
  have hstop : loopCond cEnvW 2 = false := by
    simp only [loopCond, cEnvW, cEnvOff, decide_eq_false_iff_not]
    norm_num
  rw [c9_slew_rates cEnvW 2 2 0 hrun hstop (le_refl 2)]
  norm_num [List.range_succ, pyRound, relTime, cEnvW, cEnvOff]

/-- C8 (amended): every error sample the loop accumulates is a triple whose
first component is the tick's relative time, whose second component is the
azimuth error, target azimuth minus the measured azimuth adjusted by a whole
number of turns in minus 360, 0 or 360, and whose third component is the
altitude error, target altitude minus the measured altitude; samples arise
only from error-sampling ticks admitted by the loop condition. -/
theorem c8_error_samples (env : LoopEnv) (failAt : Option (ℕ × ℕ)) :
    ∀ (fuel j : ℕ) (lazm : ℚ), ∀ e ∈ (loopRun env failAt fuel j lazm).2,
      ∃ i, j ≤ i ∧ logTick env i = true ∧ loopCond env i = true ∧
        e.1 = relTime env i ∧
        (∃ k : ℚ, (k = 0 ∨ k = 360 ∨ k = -360) ∧
          e.2.1 = (env.valsAz (relTime env i)).1 - ((env.meas i).1 + k)) ∧
        e.2.2 = (env.valsAlt (relTime env i)).1 - (env.meas i).2 := by
  intro fuel
  induction fuel with
  | zero =>
    intro j lazm e he
    simp [loopRun] at he
  | succ fuel ih =>
    intro j lazm e he
    by_cases hcond : loopCond env j
    · cases hfail : failsHere failAt j with
      | some k =>
        rw [loopRun_fail env failAt fuel j k lazm hcond hfail] at he
        simp at he
      | none =>
        rw [loopRun_step env failAt fuel j lazm hcond hfail] at he
        rw [List.mem_append] at he
        rcases he with he | he
        · cases hlog : logTick env j with
          | false =>
            rw [hlog] at he
            simp at he
          | true =>
            rw [hlog] at he
            simp at he
            subst he
            refine ⟨j, le_refl j, hlog, hcond, rfl, ?_, rfl⟩
            rcases wrapCorrect_cases lazm (env.meas j).1 with hw | hw | hw
            · exact ⟨0, Or.inl rfl, by simp [tickEntry, hw]⟩
            · refine ⟨360, Or.inr (Or.inl rfl), ?_⟩
              simp only [tickEntry, hw]
            · refine ⟨-360, Or.inr (Or.inr rfl), ?_⟩
              simp only [tickEntry, hw]
              ring
        · obtain ⟨i, hi, rest⟩ := ih (j + 1) _ e he
          exact ⟨i, by omega, rest⟩
    · rw [loopRun_stop env failAt fuel j lazm (by simpa using hcond)] at he
      simp at he

/-- The environment of the C8 counterexample: a single tick, target altitude
20 and azimuth 10, measured azimuth 1 and altitude 2. -/
def cEnvOrder : LoopEnv :=
  { cEnvOff with
    durationSeconds := 1 / 2
    pad := 1 / 4
    valsAlt := fun _ => (20, 0)
    valsAz := fun _ => (10, 0)
    meas := fun _ => (1, 2)
    meas0 := 1
    sched := fun i => (i : ℚ) }

/-- C8 counterexample. In the single-tick run the accumulated sample is
(-1/4, 9, 18): after the relative time comes the azimuth error 9, target
azimuth 10 minus measured azimuth 1, and only then the altitude error 18,
target altitude 20 minus measured altitude 2; the sample is therefore ordered
(relative_time, error_az, error_alt) and not (relative_time, error_alt,
error_az) as the claim states. -/
theorem c8_counterexample :
    (loopRun cEnvOrder none 2 0 cEnvOrder.meas0).2 = [(-(1 / 4 : ℚ), 9, 18)] ∧
    (cEnvOrder.valsAz (relTime cEnvOrder 0)).1 -
      wrapCorrect cEnvOrder.meas0 (cEnvOrder.meas 0).1 = 9 ∧
    (cEnvOrder.valsAlt (relTime cEnvOrder 0)).1 - (cEnvOrder.meas 0).2 = 18 ∧
    ([(-(1 / 4 : ℚ), 9, 18)] : List (ℚ × ℚ × ℚ)) ≠ [(-(1 / 4 : ℚ), 18, 9)] := by
  refine ⟨?_, ?_, ?_, ?_⟩
  · norm_num [loopRun, loopCond, failsHere, logTick, tickEntry, relTime, wrapCorrect,
      cEnvOrder, cEnvOff]
  · norm_num [relTime, wrapCorrect, cEnvOrder, cEnvOff]
  · norm_num [cEnvOrder, cEnvOff]
  · norm_num

/-- Witness for the amended C8: the single accumulated sample of the
counterexample run has exactly the shape the amended claim requires. -/
theorem c8_witness :
    ∃ i, 0 ≤ i ∧ logTick cEnvOrder i = true ∧ loopCond cEnvOrder i = true ∧
      ((-(1 / 4 : ℚ), (9 : ℚ), (18 : ℚ)) : ℚ × ℚ × ℚ).1 = relTime cEnvOrder i ∧
      (∃ k : ℚ, (k = 0 ∨ k = 360 ∨ k = -360) ∧
        ((-(1 / 4 : ℚ), (9 : ℚ), (18 : ℚ)) : ℚ × ℚ × ℚ).2.1 =
          (cEnvOrder.valsAz (relTime cEnvOrder i)).1 - ((cEnvOrder.meas i).1 + k)) ∧
      ((-(1 / 4 : ℚ), (9 : ℚ), (18 : ℚ)) : ℚ × ℚ × ℚ).2.2 =
        (cEnvOrder.valsAlt (relTime cEnvOrder i)).1 - (cEnvOrder.meas i).2 := by
  have hmem : ((-(1 / 4 : ℚ), (9 : ℚ), (18 : ℚ)) : ℚ × ℚ × ℚ) ∈
      (loopRun cEnvOrder none 2 0 cEnvOrder.meas0).2 := by
    norm_num [loopRun, loopCond, failsHere, logTick, tickEntry, relTime, wrapCorrect,
      cEnvOrder, cEnvOff]
  exact c8_error_samples cEnvOrder none 2 0 cEnvOrder.meas0 _ hmem

/-! ### Main flow (main.py lines 82-144) -/

/-- The generate_trajectory pipeline: unwrap the azimuths and check slew-rate
feasibility (the asserts raising on an infeasible pair, modelled as none),
then pad the prepared points, whose values are the (altitude, azimuth) pairs
with unwrapped azimuth, over the time grid made relative to the first sample;
the function issues no mount driver call. -/
def generateTrajectory (maxR pad m : ℚ) (samples : List Sample) :
    Option (List (ℚ × ℚ) × List ℚ) :=
  if rateCheck maxR samples then
    padTraj pad m ((prepare samples).map (fun s => s.2))
      (match samples with
       | [] => []
       | s0 :: _ => samples.map (fun s => s.1 - s0.1))
  else none

/-- The command line commands of main.py. -/
inductive Command
  | execute
  | dryrun
  | trajectory
deriving DecidableEq

/-- The inputs of the main script that determine its control flow before any
hardware is touched: the command, whether the requested satellite is in the
catalog, whether the start time has already elapsed, and the set-location and
set-time flags. -/
structure MainArgs where
  cmd : Command
  satFound : Bool
  startElapsed : Bool
  setLoc : Bool
  setTm : Bool

/-- Mount calls of init_telescope (utils.py lines 95-130): connect, then
optionally set the location and the time. -/
def initCalls (args : MainArgs) : List Call :=
  Call.connect :: ((if args.setLoc then [Call.setLocation] else []) ++
    (if args.setTm then [Call.setTime] else []))

/-- The main flow of main.py: satellite lookup, the start-time check for
execute mode, trajectory generation, the early exit of trajectory mode, then
telescope initialization and tracking. The result is the mount call trace
paired with true exactly when the run aborted with an error before tracking. -/
def mainRun (args : MainArgs) (maxR pad m : ℚ) (samples : List Sample)
    (env : LoopEnv) (failAt : Option (ℕ × ℕ)) (fuel : ℕ) :
    List Call × Bool :=
  if args.satFound = false then ([], true)
  else if args.cmd = Command.execute ∧ args.startElapsed = true then ([], true)
  else
    match generateTrajectory maxR pad m samples with
    | none => ([], true)
    | some _ =>
      if args.cmd = Command.trajectory then ([], false)
      else (initCalls args ++ trackTrace env failAt fuel, false)

/-- C3: whenever the rate feasibility check rejects the sampled trajectory,
the main flow makes no mount driver call at all: trajectory generation runs
strictly before telescope initialization and tracking, so the infeasibility
failure aborts the run with an empty hardware trace. -/
theorem c3_no_hardware (args : MainArgs) (maxR pad m : ℚ) (samples : List Sample)
    (env : LoopEnv) (failAt : Option (ℕ × ℕ)) (fuel : ℕ)
    (h : rateCheck maxR samples = false) :
    (mainRun args maxR pad m samples env failAt fuel).1 = [] := by
  have hg : generateTrajectory maxR pad m samples = none := by
    unfold generateTrajectory
    rw [h]
    simp
  unfold mainRun
  split_ifs with h1 h2 h3
  · rfl
  · rfl
  · rw [hg]
  · rw [hg]

/-- Witness for C3 at a concrete input: a sample pair implying an altitude
rate of 1200 arcseconds per second against a limit of 600 makes the
feasibility check fail, and the execute-mode main flow issues no mount
call. -/
theorem c3_witness :
    (mainRun ⟨Command.execute, true, false, true, true⟩ 600 2 1
      [((0 : ℚ), (10 : ℚ), (350 : ℚ)), (30, 20, 355)] cEnvOff none 2).1 = [] := by
  refine c3_no_hardware _ 600 2 1 _ cEnvOff none 2 ?_
  norm_num [rateCheck, rateCheckFrom, wrapCorrect]

end SatelliteTracker
